import Mathlib

/-!
Verification development for the `littlelife` microscope assistant.

The Python sources under `src/littlelife/` are shallowly embedded here:

* `identify_image.py` — `_strip_code_fence`, `_context_hint`, the reply
  post-processing of `identify_image`, and the credential resolution of
  `get_client` / `secrets_store.get_openai_api_key`.
* `app.py` — the `MainWindow.on_capture` handler, modelled as a pure
  transition on an explicit application-state record.

Python strings are modelled as `List Char`.  `json.loads` is embedded as an
executable fuel-based parser (`json_loads`) covering JSON objects, arrays,
strings (with escapes), integer numerals, `true`/`false`/`null`.  Non-integer
JSON numerals (fraction/exponent forms) are outside the model, as are
non-ASCII case folding and the non-ASCII whitespace code points of Python's
`str.strip` / `int()`; no claim below depends on those.  Fallible Python code
(`raise`) is embedded with `Except`, the carried `List Char` being the
message text of the raised exception.
-/

/-- Embedding of Python `dict` values produced by `json.loads`: JSON values.
Objects carry their key/value pairs in insertion order, later duplicate keys
overwriting the value of the first occurrence, as CPython `dict` does. -/
inductive Json where
  | null : Json
  | bool : Bool → Json
  | num : Int → Json
  | str : List Char → Json
  | arr : List Json → Json
  | obj : List (List Char × Json) → Json

/-- The whitespace characters recognised by the JSON grammar (and hence by
`json.loads` between tokens). -/
def jsonWs (c : Char) : Bool :=
  c == ' ' || c == '\t' || c == '\n' || c == '\r'

/-- The ASCII whitespace characters stripped by Python `str.strip()`. -/
def pyIsSpace (c : Char) : Bool :=
  c == ' ' || c == '\t' || c == '\n' || c == '\r' || c == '\x0b' || c == '\x0c'

/-- Drop leading JSON whitespace, as the decoder does between tokens. -/
def skipWs : List Char → List Char
  | [] => []
  | c :: r => if jsonWs c then skipWs r else c :: r

/-- Python `s.lstrip()` on ASCII input. -/
def lstripL (l : List Char) : List Char :=
  List.dropWhile pyIsSpace l

/-- Python `s.rstrip()` on ASCII input. -/
def rstripL (l : List Char) : List Char :=
  (List.dropWhile pyIsSpace l.reverse).reverse

/-- Python `s.strip()` on ASCII input. -/
def stripL (l : List Char) : List Char :=
  rstripL (lstripL l)

/-- Python `str.lower` restricted to ASCII letters. -/
def pyToLower (c : Char) : Char :=
  if 'A' ≤ c && c ≤ 'Z' then Char.ofNat (c.toNat + 32) else c

/-- Python `s.lower()` on ASCII input. -/
def toLowerL (l : List Char) : List Char :=
  l.map pyToLower

/-- The backtick character that delimits Markdown code fences. -/
def btick : Char := Char.ofNat 96

/-- Whether `p` is a prefix of `l` (Python `str.startswith`). -/
def startsWithL : List Char → List Char → Bool
  | [], _ => true
  | _ :: _, [] => false
  | p :: ps, c :: cs => p == c && startsWithL ps cs

/-- Python `str.endswith`. -/
def endsWithL (p l : List Char) : Bool :=
  startsWithL p.reverse l.reverse

/-- Python `"\n" in t`. -/
def containsNL : List Char → Bool
  | [] => false
  | c :: r => if c == '\n' then true else containsNL r

/-- Python `t.split("\n", 1)[1]`: everything after the first newline. -/
def afterFirstNL : List Char → List Char
  | [] => []
  | c :: r => if c == '\n' then r else afterFirstNL r

/-- The ten ASCII digits (the digits of the JSON numeral grammar). -/
def isDigitC (c : Char) : Bool :=
  c == '0' || c == '1' || c == '2' || c == '3' || c == '4' ||
  c == '5' || c == '6' || c == '7' || c == '8' || c == '9'

/-- Numeric value of an ASCII digit. -/
def digitVal (c : Char) : Nat :=
  c.toNat - '0'.toNat

/-- Split off the longest leading run of ASCII digits. -/
def takeDigits : List Char → List Char × List Char
  | [] => ([], [])
  | c :: r =>
    if isDigitC c then
      let p := takeDigits r
      (c :: p.1, p.2)
    else ([], c :: r)

/-- Value of a digit string, most significant first. -/
def digitsToNat (acc : Nat) : List Char → Nat
  | [] => acc
  | c :: r => digitsToNat (acc * 10 + digitVal c) r

/-- Parse a JSON integer numeral at the head of the input.  JSON forbids a
leading zero on a multi-digit numeral; a numeral continued by `.`, `e` or
`E` would be a float literal, which this model does not cover, so parsing
fails there. -/
def parseNumber (s : List Char) : Option (Int × List Char) :=
  let sp := match s with
    | '-' :: r => (true, r)
    | _ => (false, s)
  match takeDigits sp.2 with
  | ([], _) => none
  | (d :: ds, rest) =>
    if d == '0' && !ds.isEmpty then none
    else
      match rest with
      | c :: _ =>
        if c == '.' || c == 'e' || c == 'E' then none
        else
          let n : Int := Int.ofNat (digitsToNat 0 (d :: ds))
          some (if sp.1 then -n else n, rest)
      | [] =>
        let n : Int := Int.ofNat (digitsToNat 0 (d :: ds))
        some (if sp.1 then -n else n, [])

/-- Value of an ASCII hex digit, if any. -/
def hexVal (c : Char) : Option Nat :=
  if isDigitC c then some (digitVal c)
  else if c == 'a' || c == 'A' then some 10
  else if c == 'b' || c == 'B' then some 11
  else if c == 'c' || c == 'C' then some 12
  else if c == 'd' || c == 'D' then some 13
  else if c == 'e' || c == 'E' then some 14
  else if c == 'f' || c == 'F' then some 15
  else none

/-- Parse the body of a JSON string (the opening quote already consumed),
returning the decoded characters and the rest of the input.  The strict mode
of `json.loads` rejects raw control characters; surrogate-pair recombination
of `\uXXXX` escapes is not modelled. -/
def parseStr : Nat → List Char → Option (List Char × List Char)
  | 0, _ => none
  | _ + 1, [] => none
  | fu + 1, c :: r =>
    if c == '"' then some ([], r)
    else if c == '\\' then
      match r with
      | [] => none
      | e :: r2 =>
        if e == '"' then (parseStr fu r2).map (fun p => ('"' :: p.1, p.2))
        else if e == '\\' then (parseStr fu r2).map (fun p => ('\\' :: p.1, p.2))
        else if e == '/' then (parseStr fu r2).map (fun p => ('/' :: p.1, p.2))
        else if e == 'b' then (parseStr fu r2).map (fun p => ('\x08' :: p.1, p.2))
        else if e == 'f' then (parseStr fu r2).map (fun p => ('\x0c' :: p.1, p.2))
        else if e == 'n' then (parseStr fu r2).map (fun p => ('\n' :: p.1, p.2))
        else if e == 'r' then (parseStr fu r2).map (fun p => ('\r' :: p.1, p.2))
        else if e == 't' then (parseStr fu r2).map (fun p => ('\t' :: p.1, p.2))
        else if e == 'u' then
          match r2 with
          | h1 :: h2 :: h3 :: h4 :: r3 =>
            match hexVal h1, hexVal h2, hexVal h3, hexVal h4 with
            | some a, some b, some cc, some d =>
              (parseStr fu r3).map
                (fun p => (Char.ofNat (((a * 16 + b) * 16 + cc) * 16 + d) :: p.1, p.2))
            | _, _, _, _ => none
          | _ => none
        else none
    else if c.toNat < 32 then none
    else (parseStr fu r).map (fun p => (c :: p.1, p.2))

/-- Python `dict` update `d[k] = v`: replace the value at an existing key in
place, otherwise append the binding. -/
def dictSet (kvs : List (List Char × Json)) (k : List Char) (v : Json) :
    List (List Char × Json) :=
  match kvs with
  | [] => [(k, v)]
  | (k', v') :: r => if k' = k then (k', v) :: r else (k', v') :: dictSet r k v

/-- Python `dict` lookup `d.get(k)`. -/
def dictGet (kvs : List (List Char × Json)) (k : List Char) : Option Json :=
  match kvs with
  | [] => none
  | (k', v) :: r => if k' = k then some v else dictGet r k

/-- Modes of the recursive-descent JSON decoder: a value, the items of an
array after `[`, or the members of an object after an opening brace. -/
inductive PMode where
  | val : PMode
  | arrStart : PMode
  | arrItems : List Json → PMode
  | objStart : PMode
  | objItems : List (List Char × Json) → PMode

/-- Fuel-based embedding of the `json.loads` recursive-descent decoder. -/
def parseF : Nat → PMode → List Char → Option (Json × List Char)
  | 0, _, _ => none
  | fu + 1, PMode.val, s =>
    match skipWs s with
    | [] => none
    | c :: r =>
      if c == '"' then (parseStr fu r).map (fun p => (Json.str p.1, p.2))
      else if c == '\x7b' then parseF fu PMode.objStart r
      else if c == '[' then parseF fu PMode.arrStart r
      else if c == 't' then
        match r with
        | 'r' :: 'u' :: 'e' :: r2 => some (Json.bool true, r2)
        | _ => none
      else if c == 'f' then
        match r with
        | 'a' :: 'l' :: 's' :: 'e' :: r2 => some (Json.bool false, r2)
        | _ => none
      else if c == 'n' then
        match r with
        | 'u' :: 'l' :: 'l' :: r2 => some (Json.null, r2)
        | _ => none
      else if c == '-' || isDigitC c then
        (parseNumber (c :: r)).map (fun p => (Json.num p.1, p.2))
      else none
  | fu + 1, PMode.arrStart, s =>
    match skipWs s with
    | ']' :: r => some (Json.arr [], r)
    | _ => parseF fu (PMode.arrItems []) s
  | fu + 1, PMode.arrItems acc, s =>
    match parseF fu PMode.val s with
    | none => none
    | some (v, r) =>
      match skipWs r with
      | ',' :: r2 => parseF fu (PMode.arrItems (acc ++ [v])) r2
      | ']' :: r2 => some (Json.arr (acc ++ [v]), r2)
      | _ => none
  | fu + 1, PMode.objStart, s =>
    match skipWs s with
    | '\x7d' :: r => some (Json.obj [], r)
    | _ => parseF fu (PMode.objItems []) s
  | fu + 1, PMode.objItems acc, s =>
    match skipWs s with
    | '"' :: r =>
      match parseStr fu r with
      | none => none
      | some (k, r1) =>
        match skipWs r1 with
        | ':' :: r2 =>
          match parseF fu PMode.val r2 with
          | none => none
          | some (v, r3) =>
            match skipWs r3 with
            | ',' :: r4 => parseF fu (PMode.objItems (dictSet acc k v)) r4
            | '\x7d' :: r4 => some (Json.obj (dictSet acc k v), r4)
            | _ => none
        | _ => none
    | _ => none

/-- Embedding of `json.loads`: decode one JSON value and require only
whitespace after it.  The fuel `2 * length + 8` dominates the recursion
depth, every decoding step consuming input or dispatching once. -/
def json_loads (s : List Char) : Option Json :=
  match parseF (2 * s.length + 8) PMode.val s with
  | some (v, r) => if skipWs r = [] then some v else none
  | none => none

/-- Embedding of `identify_image._strip_code_fence`: trim the reply, and if
it opens with a triple-backtick fence, drop the first line, drop a trailing
triple-backtick fence, re-trim, and drop a leading `json` language tag. -/
def _strip_code_fence (text : List Char) : List Char :=
  let t := stripL text
  if startsWithL ("```").data t then
    let t := if containsNL t then afterFirstNL t else []
    let t := if endsWithL ("```").data (rstripL t) then (rstripL t).take ((rstripL t).length - 3) else t
    let t := stripL t
    if startsWithL ("json").data (toLowerL t) then lstripL (t.drop 4) else t
  else t

/-- Hint text for pond samples (`identify_image._context_hint`). -/
def pondHint : List Char :=
  ("Assume a pond/wet mount sample. Consider common freshwater microorganisms (protozoa, rotifers, algae/diatoms, nematodes, small crustaceans, etc.).").data

/-- Hint text for soil samples. -/
def soilHint : List Char :=
  ("Assume a soil sample. Consider soil organisms and structures (mites, nematodes, fungal hyphae/spores, pollen, plant fibers), and mineral grains.").data

/-- Hint text for tissue samples. -/
def tissueHint : List Char :=
  ("Assume a tissue/biological smear. Consider common cell types and structures (epithelial cells, red/white blood cells if applicable, parasites/eggs, bacteria patterns if visible).").data

/-- Hint text for crystal samples. -/
def crystalHint : List Char :=
  ("Assume a crystal/mineral sample. Consider crystal habit, cleavage, inclusions, and common salts/minerals that appear under a microscope.").data

/-- Hint text for the fallback category. -/
def otherHint : List Char :=
  ("No specific sample context; identify the most likely subject and clearly note uncertainty.").data

/-- The `hints.get(st, hints["other"])` lookup over the five fixed keys of
`_context_hint`, with the dictionary literal rendered as a decision chain. -/
def hintsGet (st : List Char) : List Char :=
  if st = ("pond").data then pondHint
  else if st = ("soil").data then soilHint
  else if st = ("tissue").data then tissueHint
  else if st = ("crystal").data then crystalHint
  else if st = ("other").data then otherHint
  else otherHint

/-- Python `sample_type or "Other"`: `None` and the empty string are falsy. -/
def pyOrStr (s : Option (List Char)) (d : List Char) : List Char :=
  match s with
  | none => d
  | some x => if x = [] then d else x

/-- Embedding of `identify_image._context_hint`. -/
def _context_hint (sample_type : Option (List Char)) : List Char :=
  hintsGet (toLowerL (stripL (pyOrStr sample_type ("Other").data)))

/-- Digit-run loop of Python `int(s)` on strings; `acc` is the value read so
far, single underscores being allowed between digits. -/
def intDigitsLoop (acc : Nat) : List Char → Option Nat
  | [] => some acc
  | '_' :: c :: r => if isDigitC c then intDigitsLoop (acc * 10 + digitVal c) r else none
  | c :: r => if isDigitC c then intDigitsLoop (acc * 10 + digitVal c) r else none

/-- Python `int(s)` digit part: a non-empty ASCII digit run with single
underscores allowed between digits.  Non-ASCII digit code points are not
modelled. -/
def intDigits : List Char → Option Nat
  | [] => none
  | c :: r =>
    if isDigitC c then intDigitsLoop (digitVal c) r else none

/-- Python `int(s)` for a string argument, `none` when it raises. -/
def pyIntOfStr (s : List Char) : Option Int :=
  match stripL s with
  | '+' :: r => (intDigits r).map Int.ofNat
  | '-' :: r => (intDigits r).map (fun n => -(Int.ofNat n))
  | t => (intDigits t).map Int.ofNat

/-- Python `int(x)` on a JSON value: integers pass through, booleans become
0/1, numeric strings are parsed; `None`, lists and dicts raise (`none`). -/
def pyInt : Json → Option Int
  | Json.num n => some n
  | Json.bool b => some (if b then 1 else 0)
  | Json.str s => pyIntOfStr s
  | _ => none

/-- Python `d.setdefault(k, v)`: insert `v` at the end iff `k` is absent. -/
def setdefault (kvs : List (List Char × Json)) (k : List Char) (v : Json) :
    List (List Char × Json) :=
  match dictGet kvs k with
  | some _ => kvs
  | none => kvs ++ [(k, v)]

/-- Key `"best_guess_name"`. -/
def kBest : List Char := ("best_guess_name").data

/-- Key `"confidence"`. -/
def kConf : List Char := ("confidence").data

/-- Key `"description"`. -/
def kDesc : List Char := ("description").data

/-- Key `"features_used"`. -/
def kFeat : List Char := ("features_used").data

/-- The `try: result["confidence"] = int(result["confidence"]) except: 0`
statement of `identify_image`, as a map on the dict. -/
def coerceConf (kvs : List (List Char × Json)) : List (List Char × Json) :=
  dictSet kvs kConf
    (Json.num (match dictGet kvs kConf with
      | some v => (pyInt v).getD 0
      | none => 0))

/-- The `result["confidence"] = max(0, min(100, result["confidence"]))`
statement of `identify_image`, as a map on the dict.  When this statement
runs the value at `"confidence"` is always an integer already. -/
def clampConf (kvs : List (List Char × Json)) : List (List Char × Json) :=
  dictSet kvs kConf
    (Json.num (match dictGet kvs kConf with
      | some (Json.num n) => max 0 (min 100 n)
      | _ => 0))

/-- The post-parse normalisation of `identify_image`: default the four
expected keys with `setdefault`, coerce `confidence` with `int(...)` (0 when
that raises), then clamp it with `max(0, min(100, ...))`. -/
def postprocess (kvs0 : List (List Char × Json)) : List (List Char × Json) :=
  clampConf (coerceConf
    (setdefault (setdefault (setdefault (setdefault kvs0
      kBest (Json.str ("Unknown").data))
      kConf (Json.num 0))
      kDesc (Json.str []))
      kFeat (Json.str [])))

/-- The two `ValueError`s `identify_image` raises on malformed replies, each
carrying the cleaned (fence-stripped) text interpolated into its message. -/
inductive ReplyError where
  | notJson (text : List Char) : ReplyError
  | nonDict (text : List Char) : ReplyError

/-- Reply-processing portion of `identify_image`.  The client call and image
encoding are abstracted: `reply` stands for `resp.output_text`, and
`sample_type` only shapes the prompt (via `_context_hint`), never the result. -/
def identify_from_reply (sample_type : Option (List Char)) (reply : List Char) :
    Except ReplyError (List (List Char × Json)) :=
  let _prompt_context := _context_hint sample_type
  let text := _strip_code_fence reply
  match json_loads text with
  | none => Except.error (ReplyError.notJson text)
  | some (Json.obj kvs) => Except.ok (postprocess kvs)
  | some _ => Except.error (ReplyError.nonDict text)

/-- Message of the `RuntimeError` raised by `secrets_store.get_openai_api_key`. -/
def storeErrMsg : List Char :=
  ("OPENAI_API_KEY not set. Set it in your shell or launcher script.").data

/-- Message of the `RuntimeError` raised inside `get_client`. -/
def clientErrMsg : List Char :=
  ("OpenAI API key not set. Set OPENAI_API_KEY (dev) or add a key in the app.").data

/-- Embedding of `secrets_store.get_openai_api_key`: read `OPENAI_API_KEY`
from the environment and raise when it is unset or falsy. -/
def get_openai_api_key (env : Option (List Char)) : Except (List Char) (List Char) :=
  match env with
  | none => Except.error storeErrMsg
  | some k => if k = [] then Except.error storeErrMsg else Except.ok k

/-- Credential resolution of `get_client` (the spec's `resolve_credential`):
`os.environ.get("OPENAI_API_KEY") or get_openai_api_key()`, then a final
falsy check.  `env` is the value of `OPENAI_API_KEY`; the construction of
the `OpenAI` client object itself is abstracted away, the resolved key being
returned. -/
def resolve_credential (env : Option (List Char)) : Except (List Char) (List Char) :=
  let first : Except (List Char) (List Char) :=
    match env with
    | some k => if k = [] then get_openai_api_key env else Except.ok k
    | none => get_openai_api_key env
  match first with
  | Except.error e => Except.error e
  | Except.ok k => if k = [] then Except.error clientErrMsg else Except.ok k

/-- Credential visible in the environment location: the env var's value when
it is set and non-empty (truthy). -/
def envCred (env : Option (List Char)) : Option (List Char) :=
  match env with
  | none => none
  | some k => if k = [] then none else some k

/-- Credential visible in the secret-store location: what
`get_openai_api_key` yields when it does not raise. -/
def storeCred (env : Option (List Char)) : Option (List Char) :=
  match get_openai_api_key env with
  | Except.ok k => some k
  | Except.error _ => none

/-- State of `MainWindow` touched by `on_capture`, together with the status
bar.  Frames are abstract (`Option Nat`); file-system writes performed by
`cv2.imwrite` are reported separately by `on_capture`. -/
structure AppState where
  camera_enabled : Bool
  last_frame : Option Nat
  current_image_path : Option (List Char)
  temp_files : List (List Char)
  loaded_path_label : List Char
  identify_enabled : Bool
  result_label : List Char
  conf_label : List Char
  notes : List Char
  status : List Char

/-- Embedding of `MainWindow.on_capture`.  `tmp_path` is the fresh name
produced by `tempfile.NamedTemporaryFile`; the returned list holds the paths
written by `cv2.imwrite` during the call. -/
def on_capture (tmp_path : List Char) (st : AppState) : AppState × List (List Char) :=
  if st.camera_enabled = false then
    ({ st with status := ("Camera disabled.").data }, [])
  else
    match st.last_frame with
    | none => ({ st with status := ("No camera frame yet.").data }, [])
    | some _ =>
      ({ st with
          temp_files := st.temp_files ++ [tmp_path],
          current_image_path := some tmp_path,
          loaded_path_label := tmp_path,
          identify_enabled := true,
          result_label := ("—").data,
          conf_label := ("Confidence: —").data,
          notes := [],
          status := ("Captured frame. Ready to identify.").data },
        [tmp_path])

theorem dictGet_append (a b : List (List Char × Json)) (k : List Char) :
    dictGet (a ++ b) k =
      match dictGet a k with
      | some v => some v
      | none => dictGet b k := by
  induction a with
  | nil => simp [dictGet]
  | cons p r ih =>
    by_cases h : p.1 = k
    · simp [dictGet, h]
    · simp [dictGet, h, ih]

theorem dictGet_dictSet_self (kvs : List (List Char × Json)) (k : List Char) (v : Json) :
    dictGet (dictSet kvs k v) k = some v := by
  induction kvs with
  | nil => simp [dictSet, dictGet]
  | cons p r ih =>
    by_cases h : p.1 = k
    · simp [dictSet, dictGet, h]
    · simp [dictSet, dictGet, h, ih]

theorem dictGet_dictSet_other (kvs : List (List Char × Json)) (k k' : List Char) (v : Json)
    (h : k' ≠ k) : dictGet (dictSet kvs k v) k' = dictGet kvs k' := by
  have hne : k ≠ k' := fun hh => h hh.symm
  induction kvs with
  | nil => simp [dictSet, dictGet, hne]
  | cons p r ih =>
    obtain ⟨pk, pv⟩ := p
    by_cases hk : pk = k
    · subst hk
      simp [dictSet, dictGet, hne]
    · by_cases hk' : pk = k'
      · simp [dictSet, dictGet, hk, hk', h]
      · simp [dictSet, dictGet, hk, hk', ih]

theorem dictGet_setdefault_self (kvs : List (List Char × Json)) (k : List Char) (d : Json) :
    dictGet (setdefault kvs k d) k = some ((dictGet kvs k).getD d) := by
  unfold setdefault
  cases h : dictGet kvs k with
  | some v => simp [h]
  | none => simp [dictGet_append, h, dictGet]

theorem dictGet_setdefault_other (kvs : List (List Char × Json)) (k k' : List Char) (d : Json)
    (h : k' ≠ k) : dictGet (setdefault kvs k d) k' = dictGet kvs k' := by
  unfold setdefault
  cases hg : dictGet kvs k with
  | some v => rfl
  | none =>
    rw [dictGet_append]
    cases hg' : dictGet kvs k' with
    | some v => rfl
    | none =>
      have hne : k ≠ k' := fun hh => h hh.symm
      simp [dictGet, hne]

theorem postprocess_best (kvs0 : List (List Char × Json)) :
    dictGet (postprocess kvs0) kBest =
      some ((dictGet kvs0 kBest).getD (Json.str ("Unknown").data)) := by
  unfold postprocess clampConf coerceConf
  rw [dictGet_dictSet_other _ _ _ _ (by decide), dictGet_dictSet_other _ _ _ _ (by decide),
    dictGet_setdefault_other _ _ _ _ (by decide), dictGet_setdefault_other _ _ _ _ (by decide),
    dictGet_setdefault_other _ _ _ _ (by decide), dictGet_setdefault_self]

theorem postprocess_desc (kvs0 : List (List Char × Json)) :
    dictGet (postprocess kvs0) kDesc = some ((dictGet kvs0 kDesc).getD (Json.str [])) := by
  unfold postprocess clampConf coerceConf
  rw [dictGet_dictSet_other _ _ _ _ (by decide), dictGet_dictSet_other _ _ _ _ (by decide),
    dictGet_setdefault_other _ _ _ _ (by decide), dictGet_setdefault_self,
    dictGet_setdefault_other _ _ _ _ (by decide), dictGet_setdefault_other _ _ _ _ (by decide)]

theorem postprocess_feat (kvs0 : List (List Char × Json)) :
    dictGet (postprocess kvs0) kFeat = some ((dictGet kvs0 kFeat).getD (Json.str [])) := by
  unfold postprocess clampConf coerceConf
  rw [dictGet_dictSet_other _ _ _ _ (by decide), dictGet_dictSet_other _ _ _ _ (by decide),
    dictGet_setdefault_self, dictGet_setdefault_other _ _ _ _ (by decide),
    dictGet_setdefault_other _ _ _ _ (by decide), dictGet_setdefault_other _ _ _ _ (by decide)]

theorem postprocess_conf (kvs0 : List (List Char × Json)) :
    dictGet (postprocess kvs0) kConf =
      some (Json.num (max 0 (min 100
        ((pyInt ((dictGet kvs0 kConf).getD (Json.num 0))).getD 0)))) := by
  unfold postprocess clampConf coerceConf
  rw [dictGet_dictSet_self, dictGet_dictSet_self,
    dictGet_setdefault_other _ _ _ _ (by decide), dictGet_setdefault_other _ _ _ _ (by decide),
    dictGet_setdefault_self, dictGet_setdefault_other _ _ _ _ (by decide)]

theorem postprocess_extra (kvs0 : List (List Char × Json)) (k : List Char)
    (h1 : k ≠ kBest) (h2 : k ≠ kConf) (h3 : k ≠ kDesc) (h4 : k ≠ kFeat) :
    dictGet (postprocess kvs0) k = dictGet kvs0 k := by
  unfold postprocess clampConf coerceConf
  rw [dictGet_dictSet_other _ _ _ _ h2, dictGet_dictSet_other _ _ _ _ h2,
    dictGet_setdefault_other _ _ _ _ h4, dictGet_setdefault_other _ _ _ _ h3,
    dictGet_setdefault_other _ _ _ _ h2, dictGet_setdefault_other _ _ _ _ h1]

/-- Claim C1, counterexample to the claim as stated: the reply is a JSON
object with all four expected keys whose `confidence` value is the string
`"85"`; the claim predicts the four values come back unchanged apart from
clamping, but `identify_image` returns `confidence` as the integer 85, not
the string `"85"`. -/
theorem C1_counterexample :
    identify_from_reply none
      (("\x7b\"best_guess_name\": \"A\", \"confidence\": \"85\", \"description\": \"\", \"features_used\": \"\"\x7d").data)
    = Except.ok
        [(kBest, Json.str ['A']), (kConf, Json.num 85),
         (kDesc, Json.str []), (kFeat, Json.str [])] ∧
    Json.num 85 ≠ Json.str (("85").data) :=
  ⟨rfl, fun h => Json.noConfusion h⟩

/-- Claim C1 (amended): for every reply text that (after fence stripping)
parses as a JSON object containing all four keys, `identify_image` succeeds
and returns `best_guess_name`, `description` and `features_used` unchanged,
while `confidence` is first coerced with Python `int(...)` (0 when the
coercion raises) and then clamped into [0,100]. -/
theorem C1_theorem (st : Option (List Char)) (reply : List Char)
    (kvs : List (List Char × Json)) (n c d f : Json)
    (hp : json_loads (_strip_code_fence reply) = some (Json.obj kvs))
    (hn : dictGet kvs kBest = some n) (hc : dictGet kvs kConf = some c)
    (hd : dictGet kvs kDesc = some d) (hf : dictGet kvs kFeat = some f) :
    identify_from_reply st reply = Except.ok (postprocess kvs) ∧
    dictGet (postprocess kvs) kBest = some n ∧
    dictGet (postprocess kvs) kDesc = some d ∧
    dictGet (postprocess kvs) kFeat = some f ∧
    dictGet (postprocess kvs) kConf =
      some (Json.num (max 0 (min 100 ((pyInt c).getD 0)))) := by
  refine ⟨?_, ?_, ?_, ?_, ?_⟩
  · simp only [identify_from_reply]
    rw [hp]
  · rw [postprocess_best, hn]
    rfl
  · rw [postprocess_desc, hd]
    rfl
  · rw [postprocess_feat, hf]
    rfl
  · rw [postprocess_conf, hc]
    rfl

/-- Witness for C1_theorem at a concrete four-key reply. -/
theorem C1_witness :
    identify_from_reply none
      (("\x7b\"best_guess_name\": \"X\", \"confidence\": 150, \"description\": \"d\", \"features_used\": \"f\"\x7d").data)
    = Except.ok (postprocess
        [(kBest, Json.str ['X']), (kConf, Json.num 150),
         (kDesc, Json.str ['d']), (kFeat, Json.str ['f'])]) ∧
    dictGet (postprocess
        [(kBest, Json.str ['X']), (kConf, Json.num 150),
         (kDesc, Json.str ['d']), (kFeat, Json.str ['f'])]) kConf =
      some (Json.num (max 0 (min 100 ((pyInt (Json.num 150)).getD 0)))) := by
  have h := C1_theorem none
    (("\x7b\"best_guess_name\": \"X\", \"confidence\": 150, \"description\": \"d\", \"features_used\": \"f\"\x7d").data)
    [(kBest, Json.str ['X']), (kConf, Json.num 150),
     (kDesc, Json.str ['d']), (kFeat, Json.str ['f'])]
    (Json.str ['X']) (Json.num 150) (Json.str ['d']) (Json.str ['f'])
    rfl rfl rfl rfl rfl
  exact ⟨h.1, h.2.2.2.2⟩

/-- Claim C2: for every reply parsing as a JSON object, the defaults are
substituted for exactly the missing expected keys, present keys keep their
values (`confidence` undergoing its documented `int` coercion and clamping),
keys outside the expected four are untouched, and the result always carries
all four expected keys. -/
theorem C2_theorem (st : Option (List Char)) (reply : List Char)
    (kvs : List (List Char × Json))
    (hp : json_loads (_strip_code_fence reply) = some (Json.obj kvs)) :
    identify_from_reply st reply = Except.ok (postprocess kvs) ∧
    (dictGet (postprocess kvs) kBest).isSome = true ∧
    (dictGet (postprocess kvs) kConf).isSome = true ∧
    (dictGet (postprocess kvs) kDesc).isSome = true ∧
    (dictGet (postprocess kvs) kFeat).isSome = true ∧
    (dictGet kvs kBest = none →
      dictGet (postprocess kvs) kBest = some (Json.str (("Unknown").data))) ∧
    (dictGet kvs kConf = none → dictGet (postprocess kvs) kConf = some (Json.num 0)) ∧
    (dictGet kvs kDesc = none → dictGet (postprocess kvs) kDesc = some (Json.str [])) ∧
    (dictGet kvs kFeat = none → dictGet (postprocess kvs) kFeat = some (Json.str [])) ∧
    (∀ v, dictGet kvs kBest = some v → dictGet (postprocess kvs) kBest = some v) ∧
    (∀ v, dictGet kvs kDesc = some v → dictGet (postprocess kvs) kDesc = some v) ∧
    (∀ v, dictGet kvs kFeat = some v → dictGet (postprocess kvs) kFeat = some v) ∧
    (∀ v, dictGet kvs kConf = some v → dictGet (postprocess kvs) kConf =
      some (Json.num (max 0 (min 100 ((pyInt v).getD 0))))) ∧
    (∀ k, k ≠ kBest → k ≠ kConf → k ≠ kDesc → k ≠ kFeat →
      dictGet (postprocess kvs) k = dictGet kvs k) := by
  refine ⟨?_, ?_, ?_, ?_, ?_, ?_, ?_, ?_, ?_, ?_, ?_, ?_, ?_, ?_⟩
  · simp only [identify_from_reply]
    rw [hp]
  · rw [postprocess_best]
    rfl
  · rw [postprocess_conf]
    rfl
  · rw [postprocess_desc]
    rfl
  · rw [postprocess_feat]
    rfl
  · intro h
    rw [postprocess_best, h]
    rfl
  · intro h
    rw [postprocess_conf, h]
    rfl
  · intro h
    rw [postprocess_desc, h]
    rfl
  · intro h
    rw [postprocess_feat, h]
    rfl
  · intro v h
    rw [postprocess_best, h]
    rfl
  · intro v h
    rw [postprocess_desc, h]
    rfl
  · intro v h
    rw [postprocess_feat, h]
    rfl
  · intro v h
    rw [postprocess_conf, h]
    rfl
  · intro k h1 h2 h3 h4
    exact postprocess_extra kvs k h1 h2 h3 h4

/-- Witness for C2_theorem at a reply carrying only `description`. -/
theorem C2_witness :
    identify_from_reply none (("\x7b\"description\": \"x\"\x7d").data)
      = Except.ok (postprocess [(kDesc, Json.str ['x'])]) ∧
    dictGet (postprocess [(kDesc, Json.str ['x'])]) kBest
      = some (Json.str (("Unknown").data)) ∧
    dictGet (postprocess [(kDesc, Json.str ['x'])]) kDesc = some (Json.str ['x']) := by
  have h := C2_theorem none (("\x7b\"description\": \"x\"\x7d").data)
    [(kDesc, Json.str ['x'])] rfl
  exact ⟨h.1, h.2.2.2.2.2.1 rfl, h.2.2.2.2.2.2.2.2.2.2.1 (Json.str ['x']) rfl⟩

/-- Claim C5, counterexample to the claim as stated: the reply's
`confidence` is the string `"85"` — not an integer — so the claim predicts
the default 0, but `int("85")` succeeds in Python and `identify_image`
returns confidence 85. -/
theorem C5_counterexample :
    identify_from_reply none (("\x7b\"confidence\": \"85\"\x7d").data)
      = Except.ok
          [(kConf, Json.num 85), (kBest, Json.str (("Unknown").data)),
           (kDesc, Json.str []), (kFeat, Json.str [])] ∧
    (85 : Int) ≠ 0 :=
  ⟨rfl, by decide⟩

/-- Claim C5 (amended): for every reply parsing as a JSON object the
resulting confidence is an integer in [0,100]; a confidence value that
Python `int(...)` cannot convert (null, arrays, objects, non-numeric
strings) defaults to 0, convertible values (integers, booleans, numeric
strings) are coerced, and the coerced integer is clamped, e.g. -5 to 0 and
150 to 100. -/
theorem C5_theorem (st : Option (List Char)) (reply : List Char)
    (kvs : List (List Char × Json))
    (hp : json_loads (_strip_code_fence reply) = some (Json.obj kvs)) :
    identify_from_reply st reply = Except.ok (postprocess kvs) ∧
    (∃ m : Int, dictGet (postprocess kvs) kConf = some (Json.num m) ∧
      0 ≤ m ∧ m ≤ 100) ∧
    (∀ c, dictGet kvs kConf = some c → pyInt c = none →
      dictGet (postprocess kvs) kConf = some (Json.num 0)) ∧
    (∀ n : Int, dictGet kvs kConf = some (Json.num n) →
      dictGet (postprocess kvs) kConf = some (Json.num (max 0 (min 100 n)))) := by
  refine ⟨?_, ?_, ?_, ?_⟩
  · simp only [identify_from_reply]
    rw [hp]
  · refine ⟨max 0 (min 100 ((pyInt ((dictGet kvs kConf).getD (Json.num 0))).getD 0)),
      postprocess_conf kvs, ?_, ?_⟩ <;> omega
  · intro c hc hnone
    rw [postprocess_conf, hc]
    simp [hnone]
  · intro n hn
    rw [postprocess_conf, hn]
    rfl

/-- Witness for C5_theorem at confidence -5, clamped to 0. -/
theorem C5_witness :
    identify_from_reply none (("\x7b\"confidence\": -5\x7d").data)
      = Except.ok (postprocess [(kConf, Json.num (-5))]) ∧
    dictGet (postprocess [(kConf, Json.num (-5))]) kConf = some (Json.num 0) := by
  have h := C5_theorem none (("\x7b\"confidence\": -5\x7d").data)
    [(kConf, Json.num (-5))] rfl
  have h2 := h.2.2.2 (-5) rfl
  rw [h2]
  exact ⟨h.1, rfl⟩

/-- Claim C6: on the fenced Rotifer reply with sample type "Pond",
`identify_image` returns exactly best_guess_name "Rotifer", confidence 100,
description "" and features_used "". -/
theorem C6_theorem :
    identify_from_reply (some (("Pond").data))
      (("```json\n\x7b\"best_guess_name\": \"Rotifer\", \"confidence\": 150\x7d\n```").data)
    = Except.ok
        [(kBest, Json.str (("Rotifer").data)), (kConf, Json.num 100),
         (kDesc, Json.str []), (kFeat, Json.str [])] := rfl

/-- Claim C3, counterexample to the claim as stated: for the fenced
non-JSON reply the raised error carries the cleaned text "not json", which
differs from the raw reply text. -/
theorem C3_counterexample :
    identify_from_reply none (("```\nnot json\n```").data)
      = Except.error (ReplyError.notJson (("not json").data)) ∧
    ("not json").data ≠ ("```\nnot json\n```").data :=
  ⟨rfl, by decide⟩

/-- Claim C3 (amended): when the cleaned text does not parse as JSON, or
parses to a non-object value, `identify_image` raises a `ValueError` (the
spec's `ResponseFormatError`) carrying the cleaned (fence-stripped) text,
and a result is returned only when the cleaned text parses to an object. -/
theorem C3_theorem (st : Option (List Char)) (reply : List Char) :
    (json_loads (_strip_code_fence reply) = none →
      identify_from_reply st reply
        = Except.error (ReplyError.notJson (_strip_code_fence reply))) ∧
    (∀ v, json_loads (_strip_code_fence reply) = some v →
      (∀ kvs, v ≠ Json.obj kvs) →
      identify_from_reply st reply
        = Except.error (ReplyError.nonDict (_strip_code_fence reply))) ∧
    (∀ res, identify_from_reply st reply = Except.ok res →
      ∃ kvs, json_loads (_strip_code_fence reply) = some (Json.obj kvs) ∧
        res = postprocess kvs) := by
  refine ⟨?_, ?_, ?_⟩
  · intro h
    simp only [identify_from_reply]
    rw [h]
  · intro v hv hne
    simp only [identify_from_reply]
    rw [hv]
    cases v with
    | obj kvs => exact absurd rfl (hne kvs)
    | null => rfl
    | bool b => rfl
    | num n => rfl
    | str s => rfl
    | arr xs => rfl
  · intro res h
    simp only [identify_from_reply] at h
    cases hv : json_loads (_strip_code_fence reply) with
    | none =>
      rw [hv] at h
      exact absurd h (fun hh => Except.noConfusion hh)
    | some v =>
      rw [hv] at h
      cases v with
      | obj kvs =>
        refine ⟨kvs, rfl, ?_⟩
        cases h
        rfl
      | null => exact absurd h (fun hh => Except.noConfusion hh)
      | bool b => exact absurd h (fun hh => Except.noConfusion hh)
      | num n => exact absurd h (fun hh => Except.noConfusion hh)
      | str s => exact absurd h (fun hh => Except.noConfusion hh)
      | arr xs => exact absurd h (fun hh => Except.noConfusion hh)

/-- Witness for C3_theorem: a bare non-JSON reply and a JSON-array reply. -/
theorem C3_witness :
    identify_from_reply none (("oops").data)
      = Except.error (ReplyError.notJson (("oops").data)) ∧
    identify_from_reply none (("[1]").data)
      = Except.error (ReplyError.nonDict (("[1]").data)) :=
  ⟨(C3_theorem none (("oops").data)).1 rfl,
   (C3_theorem none (("[1]").data)).2.1 (Json.arr [Json.num 1]) rfl
     (fun _ h => Json.noConfusion h)⟩

/-- Claim C7: the context hinter is total (a plain Lean function), always
answers one of the five fixed hint strings, and answers the "other" hint on
every input whose normalisation is not a recognised category. -/
theorem C7_theorem (s : Option (List Char)) :
    (_context_hint s = pondHint ∨ _context_hint s = soilHint ∨
     _context_hint s = tissueHint ∨ _context_hint s = crystalHint ∨
     _context_hint s = otherHint) ∧
    (toLowerL (stripL (pyOrStr s (("Other").data))) ≠ ("pond").data →
     toLowerL (stripL (pyOrStr s (("Other").data))) ≠ ("soil").data →
     toLowerL (stripL (pyOrStr s (("Other").data))) ≠ ("tissue").data →
     toLowerL (stripL (pyOrStr s (("Other").data))) ≠ ("crystal").data →
     _context_hint s = otherHint) := by
  unfold _context_hint hintsGet
  constructor
  · split_ifs <;> tauto
  · intro h1 h2 h3 h4
    split_ifs <;> first | rfl | contradiction

/-- Witness for C7_theorem at the unrecognised sample type "slime". -/
theorem C7_witness : _context_hint (some (("slime").data)) = otherHint :=
  (C7_theorem (some (("slime").data))).2 (by decide) (by decide) (by decide) (by decide)

/-- Claim C8: credential resolution prefers the environment variable,
falls back to the secret-store lookup when it is absent, succeeds with the
environment value when that is non-empty, and fails (`RuntimeError`, the
spec's `ConfigurationError`) exactly when neither location yields a
credential. -/
theorem C8_theorem (env : Option (List Char)) :
    (∀ k, env = some k → k ≠ [] → resolve_credential env = Except.ok k) ∧
    (env = none → resolve_credential env = get_openai_api_key env) ∧
    ((∃ e, resolve_credential env = Except.error e) ↔
      (envCred env = none ∧ storeCred env = none)) := by
  refine ⟨?_, ?_, ?_⟩
  · intro k hk hne
    subst hk
    simp [resolve_credential, hne]
  · intro h
    subst h
    rfl
  · cases env with
    | none => exact ⟨fun _ => ⟨rfl, rfl⟩, fun _ => ⟨storeErrMsg, rfl⟩⟩
    | some k =>
      by_cases hk : k = []
      · subst hk
        exact ⟨fun _ => ⟨rfl, rfl⟩, fun _ => ⟨storeErrMsg, rfl⟩⟩
      · have hres : resolve_credential (some k) = Except.ok k := by
          simp [resolve_credential, hk]
        constructor
        · rintro ⟨e, he⟩
          rw [hres] at he
          exact absurd he (fun hh => Except.noConfusion hh)
        · rintro ⟨h1, _⟩
          simp [envCred, hk] at h1

/-- Witness for C8_theorem: a non-empty environment value is returned, and
an absent one delegates to the secret store. -/
theorem C8_witness :
    resolve_credential (some (("sk-test").data)) = Except.ok (("sk-test").data) ∧
    resolve_credential none = get_openai_api_key none :=
  ⟨(C8_theorem (some (("sk-test").data))).1 (("sk-test").data) rfl (by decide),
   (C8_theorem none).2.1 rfl⟩

/-- Claim C9: with the camera enabled and no frame polled yet, the capture
handler only sets the "No camera frame yet." status: it returns normally,
writes no file, and leaves the current image path and the tracked
temporary-file list untouched. -/
theorem C9_theorem (st : AppState) (tmp_path : List Char)
    (hen : st.camera_enabled = true) (hfr : st.last_frame = none) :
    on_capture tmp_path st
      = ({ st with status := ("No camera frame yet.").data }, []) ∧
    (on_capture tmp_path st).1.current_image_path = st.current_image_path ∧
    (on_capture tmp_path st).1.temp_files = st.temp_files ∧
    (on_capture tmp_path st).2 = [] := by
  have h : on_capture tmp_path st
      = ({ st with status := ("No camera frame yet.").data }, []) := by
    simp [on_capture, hen, hfr]
  refine ⟨h, ?_, ?_, ?_⟩ <;> rw [h]

/-- Witness for C9_theorem at a concrete pre-capture state. -/
theorem C9_witness :
    on_capture (("/tmp/x.jpg").data)
      { camera_enabled := true, last_frame := none, current_image_path := none,
        temp_files := [], loaded_path_label := [], identify_enabled := false,
        result_label := [], conf_label := [], notes := [],
        status := ("Ready").data }
    = ({ camera_enabled := true, last_frame := none, current_image_path := none,
          temp_files := [], loaded_path_label := [], identify_enabled := false,
          result_label := [], conf_label := [], notes := [],
          status := ("No camera frame yet.").data }, []) :=
  (C9_theorem _ _ rfl rfl).1

/-- Claim C10: sample-type lookup strips surrounding whitespace and matches
case-insensitively — the hint is a pure function of the lowercased stripped
input — with absent (`None`) and empty sample types treated as "Other". -/
theorem C10_theorem :
    (∀ s : List Char, _context_hint (some s) = hintsGet (toLowerL (stripL s))) ∧
    _context_hint (some (("Pond").data)) = pondHint ∧
    _context_hint (some (("pond").data)) = pondHint ∧
    _context_hint (some ((" POND ").data)) = pondHint ∧
    _context_hint none = otherHint ∧
    _context_hint (some []) = otherHint := by
  refine ⟨?_, rfl, rfl, rfl, rfl, rfl⟩
  intro s
  by_cases h : s = []
  · subst h
    rfl
  · unfold _context_hint
    simp only [pyOrStr]
    rw [if_neg h]

theorem length_dropWhile_le' (p : Char → Bool) (l : List Char) :
    (List.dropWhile p l).length ≤ l.length :=
  (List.dropWhile_suffix p).sublist.length_le

theorem jsonWs_imp_pySpace (c : Char) (h : jsonWs c = true) : pyIsSpace c = true := by
  simp [jsonWs] at h
  rcases h with ((h | h) | h) | h <;> subst h <;> rfl

theorem pySpace_false_jsonWs (c : Char) (h : pyIsSpace c = false) : jsonWs c = false := by
  cases hj : jsonWs c
  · rfl
  · rw [jsonWs_imp_pySpace c hj] at h
    exact Bool.noConfusion h

theorem lstrip_cons_nonspace (c : Char) (r : List Char) (h : pyIsSpace c = false) :
    lstripL (c :: r) = c :: r := by
  simp [lstripL, List.dropWhile_cons, h]

theorem dropWhile_eq_imp_head (p : Char → Bool) (c : Char) (r : List Char)
    (h : List.dropWhile p (c :: r) = c :: r) : p c = false := by
  by_cases hp : p c = true
  · rw [List.dropWhile_cons, if_pos hp] at h
    have hlen := congrArg List.length h
    have hle := length_dropWhile_le' p r
    simp at hlen
    omega
  · simpa using hp

theorem dropWhile_length_eq (p : Char → Bool) (l : List Char)
    (h : (List.dropWhile p l).length = l.length) : List.dropWhile p l = l := by
  induction l with
  | nil => rfl
  | cons c r ih =>
    by_cases hp : p c = true
    · rw [List.dropWhile_cons, if_pos hp] at h
      have hle := length_dropWhile_le' p r
      simp at h
      omega
    · rw [List.dropWhile_cons, if_neg hp]

theorem strip_self_lstrip (j : List Char) (h : stripL j = j) : lstripL j = j := by
  have hl : (lstripL j).length ≤ j.length := length_dropWhile_le' _ _
  have hr : (rstripL (lstripL j)).length ≤ (lstripL j).length := by
    unfold rstripL
    simpa using length_dropWhile_le' pyIsSpace (lstripL j).reverse
  have hj : j.length ≤ (lstripL j).length := by
    conv_lhs => rw [← h]
    exact hr
  exact dropWhile_length_eq pyIsSpace j (Nat.le_antisymm hl hj)

theorem strip_self_rstrip (j : List Char) (h : stripL j = j) : rstripL j = j := by
  have hls := strip_self_lstrip j h
  unfold stripL at h
  rw [hls] at h
  exact h

theorem rstrip_rev_dropWhile (j : List Char) (h : rstripL j = j) :
    List.dropWhile pyIsSpace j.reverse = j.reverse := by
  unfold rstripL at h
  have := congrArg List.reverse h
  simpa using this

theorem rstrip_backtick_end (l : List Char) :
    rstripL (l ++ ['\n', btick, btick, btick]) = l ++ ['\n', btick, btick, btick] := by
  unfold rstripL
  rw [List.reverse_append]
  have h1 : (['\n', btick, btick, btick] : List Char).reverse = [btick, btick, btick, '\n'] := rfl
  rw [h1]
  have h2 : pyIsSpace btick = false := rfl
  simp [List.dropWhile_cons, h2]

theorem rstrip_append_newline (l : List Char) (h : rstripL l = l) :
    rstripL (l ++ ['\n']) = l := by
  unfold rstripL
  rw [List.reverse_append]
  have h1 : (['\n'] : List Char).reverse = ['\n'] := rfl
  rw [h1]
  have h2 : pyIsSpace '\n' = true := rfl
  rw [List.singleton_append, List.dropWhile_cons, if_pos h2]
  exact h

theorem take_len_append (l1 l2 : List Char) (n : Nat) :
    (l1 ++ l2).take (l1.length + n) = l1 ++ l2.take n := by
  induction l1 with
  | nil => simp
  | cons c r ih =>
    have hn : (c :: r).length + n = (r.length + n) + 1 := by
      simp
      omega
    rw [hn, List.cons_append, List.take_succ_cons, ih]
    rfl

theorem skipWs_cons_nonws (c : Char) (r : List Char) (h : jsonWs c = false) :
    skipWs (c :: r) = c :: r := by
  simp [skipWs, h]

theorem parseF_val_head (fu : Nat) (c : Char) (r : List Char) (x : Json × List Char)
    (hws : jsonWs c = false)
    (h : parseF (fu + 1) PMode.val (c :: r) = some x) :
    c = '"' ∨ c = '\x7b' ∨ c = '[' ∨ c = 't' ∨ c = 'f' ∨ c = 'n' ∨
      c = '-' ∨ isDigitC c = true := by
  by_cases h1 : c = '"'
  · exact Or.inl h1
  by_cases h2 : c = '\x7b'
  · exact Or.inr (Or.inl h2)
  by_cases h3 : c = '['
  · exact Or.inr (Or.inr (Or.inl h3))
  by_cases h4 : c = 't'
  · exact Or.inr (Or.inr (Or.inr (Or.inl h4)))
  by_cases h5 : c = 'f'
  · exact Or.inr (Or.inr (Or.inr (Or.inr (Or.inl h5))))
  by_cases h6 : c = 'n'
  · exact Or.inr (Or.inr (Or.inr (Or.inr (Or.inr (Or.inl h6)))))
  by_cases h7 : c = '-'
  · exact Or.inr (Or.inr (Or.inr (Or.inr (Or.inr (Or.inr (Or.inl h7))))))
  by_cases h8 : isDigitC c = true
  · exact Or.inr (Or.inr (Or.inr (Or.inr (Or.inr (Or.inr (Or.inr h8))))))
  exfalso
  simp only [parseF] at h
  rw [skipWs_cons_nonws c r hws] at h
  simp [h1, h2, h3, h4, h5, h6, h7, h8] at h

theorem valueStart_js_head (c : Char)
    (hd : c = '"' ∨ c = '\x7b' ∨ c = '[' ∨ c = 't' ∨ c = 'f' ∨ c = 'n' ∨
      c = '-' ∨ isDigitC c = true) :
    ('j' == pyToLower c) = false := by
  rcases hd with h | h | h | h | h | h | h | h
  · subst h
    rfl
  · subst h
    rfl
  · subst h
    rfl
  · subst h
    rfl
  · subst h
    rfl
  · subst h
    rfl
  · subst h
    rfl
  · simp [isDigitC] at h
    rcases h with ((((((((h | h) | h) | h) | h) | h) | h) | h) | h) | h <;> subst h <;> rfl

theorem json_loads_head (j : List Char) (v : Json) (hl : lstripL j = j)
    (hp : json_loads j = some v) :
    ∃ c r, j = c :: r ∧ pyIsSpace c = false ∧
      startsWithL (("json").data) (toLowerL j) = false := by
  cases j with
  | nil => exact Option.noConfusion hp
  | cons c r =>
    have hc : pyIsSpace c = false := dropWhile_eq_imp_head pyIsSpace c r hl
    have hws : jsonWs c = false := pySpace_false_jsonWs c hc
    have hx : ∃ x, parseF (2 * (c :: r).length + 8) PMode.val (c :: r) = some x := by
      cases hP : parseF (2 * (c :: r).length + 8) PMode.val (c :: r) with
      | none =>
        exfalso
        simp only [json_loads] at hp
        rw [hP] at hp
        exact Option.noConfusion hp
      | some x => exact ⟨x, rfl⟩
    obtain ⟨x, hP⟩ := hx
    have hsucc : 2 * (c :: r).length + 8 = (2 * (c :: r).length + 7) + 1 := rfl
    rw [hsucc] at hP
    have hd := parseF_val_head _ c r x hws hP
    have hj := valueStart_js_head c hd
    refine ⟨c, r, rfl, hc, ?_⟩
    have hjd : ("json").data = 'j' :: 's' :: 'o' :: 'n' :: [] := rfl
    rw [hjd]
    simp [toLowerL, startsWithL, hj]

theorem strip_fence_tagged (c : Char) (r : List Char)
    (hc : pyIsSpace c = false) (hr : rstripL (c :: r) = c :: r)
    (hjson : startsWithL (("json").data) (toLowerL (c :: r)) = false) :
    _strip_code_fence (("```json\n").data ++ (c :: r) ++ ("\n```").data) = c :: r := by
  have e1 : (("```json\n").data ++ (c :: r) ++ ("\n```").data : List Char)
      = btick :: btick :: btick :: 'j' :: 's' :: 'o' :: 'n' :: '\n'
          :: ((c :: r) ++ ['\n', btick, btick, btick]) := by
    simp
    rfl
  rw [e1]
  have hstrip : stripL (btick :: btick :: btick :: 'j' :: 's' :: 'o' :: 'n' :: '\n'
        :: ((c :: r) ++ ['\n', btick, btick, btick]))
      = btick :: btick :: btick :: 'j' :: 's' :: 'o' :: 'n' :: '\n'
        :: ((c :: r) ++ ['\n', btick, btick, btick]) := by
    unfold stripL
    rw [lstrip_cons_nonspace _ _ (by rfl)]
    have hW : (btick :: btick :: btick :: 'j' :: 's' :: 'o' :: 'n' :: '\n'
          :: ((c :: r) ++ ['\n', btick, btick, btick]) : List Char)
        = (btick :: btick :: btick :: 'j' :: 's' :: 'o' :: 'n' :: '\n' :: (c :: r))
            ++ ['\n', btick, btick, btick] := by
      simp
    rw [hW]
    exact rstrip_backtick_end _
  have hstart : startsWithL (("```").data)
      (btick :: btick :: btick :: 'j' :: 's' :: 'o' :: 'n' :: '\n'
        :: ((c :: r) ++ ['\n', btick, btick, btick])) = true := rfl
  have hcontains : containsNL (btick :: btick :: btick :: 'j' :: 's' :: 'o' :: 'n' :: '\n'
      :: ((c :: r) ++ ['\n', btick, btick, btick])) = true := rfl
  have hafter : afterFirstNL (btick :: btick :: btick :: 'j' :: 's' :: 'o' :: 'n' :: '\n'
      :: ((c :: r) ++ ['\n', btick, btick, btick])) = (c :: r) ++ ['\n', btick, btick, btick] := rfl
  have hrs : rstripL ((c :: r) ++ ['\n', btick, btick, btick])
      = (c :: r) ++ ['\n', btick, btick, btick] := rstrip_backtick_end (c :: r)
  have hends : endsWithL (("```").data) (rstripL ((c :: r) ++ ['\n', btick, btick, btick])) = true := by
    rw [hrs]
    unfold endsWithL
    have hrev1 : (("```").data).reverse = [btick, btick, btick] := rfl
    have hrev2 : ((c :: r) ++ ['\n', btick, btick, btick]).reverse
        = btick :: btick :: btick :: '\n' :: (c :: r).reverse := by
      simp
    rw [hrev1, hrev2]
    rfl
  have htake : (rstripL ((c :: r) ++ ['\n', btick, btick, btick])).take
        ((rstripL ((c :: r) ++ ['\n', btick, btick, btick])).length - 3)
      = (c :: r) ++ ['\n'] := by
    rw [hrs]
    have hlen : ((c :: r) ++ ['\n', btick, btick, btick]).length - 3 = (c :: r).length + 1 := by
      simp
    rw [hlen]
    have ht := take_len_append (c :: r) ['\n', btick, btick, btick] 1
    simpa using ht
  have hstrip2 : stripL ((c :: r) ++ ['\n']) = c :: r := by
    unfold stripL
    have hls : lstripL ((c :: r) ++ ['\n']) = (c :: r) ++ ['\n'] := by
      rw [List.cons_append]
      exact lstrip_cons_nonspace c _ hc
    rw [hls]
    exact rstrip_append_newline (c :: r) hr
  have hjson' : ¬(startsWithL (("json").data) (toLowerL ((c :: r) : List Char)) = true) := by
    rw [hjson]
    exact Bool.noConfusion
  simp only [_strip_code_fence]
  rw [hstrip, if_pos hstart, if_pos hcontains, hafter, if_pos hends, htake, hstrip2,
    if_neg hjson']

theorem strip_fence_untagged (c : Char) (r : List Char)
    (hc : pyIsSpace c = false) (hr : rstripL (c :: r) = c :: r)
    (hjson : startsWithL (("json").data) (toLowerL (c :: r)) = false) :
    _strip_code_fence (("```\n").data ++ (c :: r) ++ ("\n```").data) = c :: r := by
  have e1 : (("```\n").data ++ (c :: r) ++ ("\n```").data : List Char)
      = btick :: btick :: btick :: '\n' :: ((c :: r) ++ ['\n', btick, btick, btick]) := by
    simp
    rfl
  rw [e1]
  have hstrip : stripL (btick :: btick :: btick :: '\n' :: ((c :: r) ++ ['\n', btick, btick, btick]))
      = btick :: btick :: btick :: '\n' :: ((c :: r) ++ ['\n', btick, btick, btick]) := by
    unfold stripL
    rw [lstrip_cons_nonspace _ _ (by rfl)]
    have hW : (btick :: btick :: btick :: '\n' :: ((c :: r) ++ ['\n', btick, btick, btick]) : List Char)
        = (btick :: btick :: btick :: '\n' :: (c :: r)) ++ ['\n', btick, btick, btick] := by
      simp
    rw [hW]
    exact rstrip_backtick_end _
  have hstart : startsWithL (("```").data)
      (btick :: btick :: btick :: '\n' :: ((c :: r) ++ ['\n', btick, btick, btick])) = true := rfl
  have hcontains : containsNL (btick :: btick :: btick :: '\n'
      :: ((c :: r) ++ ['\n', btick, btick, btick])) = true := rfl
  have hafter : afterFirstNL (btick :: btick :: btick :: '\n'
      :: ((c :: r) ++ ['\n', btick, btick, btick])) = (c :: r) ++ ['\n', btick, btick, btick] := rfl
  have hrs : rstripL ((c :: r) ++ ['\n', btick, btick, btick])
      = (c :: r) ++ ['\n', btick, btick, btick] := rstrip_backtick_end (c :: r)
  have hends : endsWithL (("```").data) (rstripL ((c :: r) ++ ['\n', btick, btick, btick])) = true := by
    rw [hrs]
    unfold endsWithL
    have hrev1 : (("```").data).reverse = [btick, btick, btick] := rfl
    have hrev2 : ((c :: r) ++ ['\n', btick, btick, btick]).reverse
        = btick :: btick :: btick :: '\n' :: (c :: r).reverse := by
      simp
    rw [hrev1, hrev2]
    rfl
  have htake : (rstripL ((c :: r) ++ ['\n', btick, btick, btick])).take
        ((rstripL ((c :: r) ++ ['\n', btick, btick, btick])).length - 3)
      = (c :: r) ++ ['\n'] := by
    rw [hrs]
    have hlen : ((c :: r) ++ ['\n', btick, btick, btick]).length - 3 = (c :: r).length + 1 := by
      simp
    rw [hlen]
    have ht := take_len_append (c :: r) ['\n', btick, btick, btick] 1
    simpa using ht
  have hstrip2 : stripL ((c :: r) ++ ['\n']) = c :: r := by
    unfold stripL
    have hls : lstripL ((c :: r) ++ ['\n']) = (c :: r) ++ ['\n'] := by
      rw [List.cons_append]
      exact lstrip_cons_nonspace c _ hc
    rw [hls]
    exact rstrip_append_newline (c :: r) hr
  have hjson' : ¬(startsWithL (("json").data) (toLowerL ((c :: r) : List Char)) = true) := by
    rw [hjson]
    exact Bool.noConfusion
  simp only [_strip_code_fence]
  rw [hstrip, if_pos hstart, if_pos hcontains, hafter, if_pos hends, htake, hstrip2,
    if_neg hjson']

/-- Claim C4: for every trimmed JSON text `j` that `json.loads` accepts,
wrapping `j` in a Markdown code fence — with or without the "json" language
tag — and running `_strip_code_fence` removes both fences (and the tag)
exactly, so the inner JSON text still parses, to the same value. -/
theorem C4_theorem (j : List Char) (v : Json) (hstrip : stripL j = j)
    (hp : json_loads j = some v) :
    _strip_code_fence (("```json\n").data ++ j ++ ("\n```").data) = j ∧
    _strip_code_fence (("```\n").data ++ j ++ ("\n```").data) = j ∧
    json_loads (_strip_code_fence (("```json\n").data ++ j ++ ("\n```").data)) = some v ∧
    json_loads (_strip_code_fence (("```\n").data ++ j ++ ("\n```").data)) = some v := by
  have hl := strip_self_lstrip j hstrip
  have hr := strip_self_rstrip j hstrip
  obtain ⟨c, r, hj, hc, hjson⟩ := json_loads_head j v hl hp
  subst hj
  have h1 := strip_fence_tagged c r hc hr hjson
  have h2 := strip_fence_untagged c r hc hr hjson
  refine ⟨h1, h2, ?_, ?_⟩
  · rw [h1]
    exact hp
  · rw [h2]
    exact hp

/-- Witness for C4_theorem on a small fenced JSON object. -/
theorem C4_witness :
    _strip_code_fence (("```json\n").data ++ ("\x7b\"confidence\": 5\x7d").data
        ++ ("\n```").data) = ("\x7b\"confidence\": 5\x7d").data ∧
    json_loads (_strip_code_fence (("```json\n").data ++ ("\x7b\"confidence\": 5\x7d").data
        ++ ("\n```").data)) = some (Json.obj [(kConf, Json.num 5)]) := by
  have h := C4_theorem (("\x7b\"confidence\": 5\x7d").data)
    (Json.obj [(kConf, Json.num 5)]) rfl rfl
  exact ⟨h.1, h.2.2.1⟩

